import Mathlib

/-!
Shallow embedding of `rescheduler_script.py` (google-calendar-rescheduler).

Modelling conventions:
* Instants attached to Google events (`event['start']['dateTime']` parsed by
  `datetime.fromisoformat`) are integers in microseconds since an arbitrary
  epoch (`startUs`, `endUs`).  The raw RFC3339 strings that the script compares
  lexicographically (`event_start`, `event_end` in `find_available_slot`) are
  carried verbatim as `startStr`, `endStr`; the script never checks that the
  two agree, and neither does the model.
* A pytz timezone is modelled as a fixed UTC offset in minutes; `localize`
  of a naive datetime yields a `LocalDT` (date, minute-of-day, offset).
  Within one run every `LocalDT` the script builds shares the one calendar
  offset, so structural equality of `LocalDT` coincides with Python's
  aware-datetime (instant) equality on the values the run actually compares.
* The Google API service object is a record of pure functions; a call that
  raises `HttpError` is modelled by the function returning `none`.
* Provider calls performed by a run are recorded in a `POp` trace.
-/

/-- A calendar date, as produced by `datetime.date`. -/
structure Date where
  year : Nat
  month : Nat
  day : Nat
deriving DecidableEq, Repr

/-- An aware datetime as built by `timezone.localize(datetime.combine(date, time))`:
a date, a minute-of-day (the script only ever builds whole-minute times on the
window's date), and the fixed UTC offset (minutes) of the calendar timezone.
`mins` is an `Int` because the slot end is `start + timedelta(minutes=duration)`
where the duration comes from `get_meeting_duration` and is an arbitrary `int`. -/
structure LocalDT where
  date : Date
  mins : Int
  offset : Int
deriving DecidableEq, Repr

/-- A Google calendar event as the script reads it: only the fields the script
touches.  `startUs`/`endUs` are the instants denoted by the event's
`start.dateTime`/`end.dateTime` (what `datetime.fromisoformat` returns, in
microseconds); `startStr`/`endStr` are the raw strings
`event['start'].get('dateTime', event['start'].get('date'))` used verbatim in
the conflict comparison of `find_available_slot`. -/
structure GEvent where
  id : String
  summary : String
  eventType : Option String
  organizerEmail : Option String
  attendees : List String
  transparency : Option String
  startStr : String
  endStr : String
  startUs : Int
  endUs : Int
deriving DecidableEq, Repr

/-- Result of `service.calendars().get(calendarId=...)`: the `id` field (owner
email, may be absent) and the calendar timezone (name for the log line, fixed
offset in minutes for the semantics). -/
structure CalInfo where
  id : Option String
  tzName : String
  tzOffset : Int
deriving DecidableEq, Repr

/-- One provider call.  `calGet` covers `service.calendars().get` (used by
`main` for the timezone and by `get_meetings_to_reschedule` for the owner
email); `listOp`/`fbOp` carry the RFC3339 range strings actually sent. -/
inductive POp where
  | calGet (calendarId : String)
  | listOp (timeMin timeMax : String)
  | fbOp (timeMin timeMax : String)
  | updOp (eventId : String)
deriving DecidableEq, Repr

/-- The Google API surface the script consumes, as pure functions.
`none` models a call raising `HttpError`. -/
structure Service where
  listEvents : String → String → Option (List GEvent)
  calendarsGet : String → Option CalInfo
  freebusy : String → String → List String → Option (List String)

/-- Two-digit zero-padded decimal rendering, as Python's `%02d` fields inside
`isoformat`. -/
def pad2 (n : Nat) : String :=
  if n < 10 then "0" ++ toString n else toString n

/-- Six-digit zero-padded microseconds rendering. -/
def pad6 (n : Nat) : String :=
  let s := toString n
  String.mk (List.replicate (6 - s.length) '0') ++ s

/-- Four-digit zero-padded year (years in scope are < 10000, as in the
script's `%Y-%m-%d` inputs). -/
def pad4 (n : Nat) : String :=
  let s := toString n
  String.mk (List.replicate (4 - s.length) '0') ++ s

/-- `date.isoformat()` / `str(date)`: `YYYY-MM-DD`. -/
def isoDateStr (d : Date) : String :=
  pad4 d.year ++ "-" ++ pad2 d.month ++ "-" ++ pad2 d.day

/-- `datetime.isoformat()` of a naive datetime with second-of-day `sec` and
`micros` microseconds: Python prints seconds always and appends
`.NNNNNN` exactly when the microsecond field is nonzero.  Faithful for
`0 ≤ sec < 86400`, the only range the script produces. -/
def naiveIso (d : Date) (sec : Int) (micros : Nat) : String :=
  isoDateStr d ++ "T" ++ pad2 (sec.tdiv 3600).toNat ++ ":" ++
    pad2 ((sec.tdiv 60).tmod 60).toNat ++ ":" ++ pad2 (sec.tmod 60).toNat ++
    (if micros = 0 then "" else "." ++ pad6 micros)

/-- UTC-offset suffix of `datetime.isoformat()` for a fixed offset of
`off` minutes: `+HH:MM` or `-HH:MM`. -/
def offsetStr (off : Int) : String :=
  (if off < 0 then "-" else "+") ++ pad2 (off.natAbs / 60) ++ ":" ++ pad2 (off.natAbs % 60)

/-- `isoformat()` of an aware `LocalDT` (microseconds are always zero on the
slot datetimes the script builds). -/
def isoformatLDT (x : LocalDT) : String :=
  naiveIso x.date (x.mins * 60) 0 ++ offsetStr x.offset

/-- RFC3339 string with a literal `Z` suffix denoting UTC, for an instant
given as date plus minute-of-day in UTC.  Used to describe provider-side
event strings in theorems. -/
def isoformatZ (d : Date) (mins : Int) : String :=
  naiveIso d (mins * 60) 0 ++ "Z"

/-- `get_meeting_duration`: `int((end - start).total_seconds() / 60)` — the
duration in whole minutes, truncated toward zero. -/
def get_meeting_duration (ev : GEvent) : Int :=
  (ev.endUs - ev.startUs).tdiv 60000000

/-- Lexicographic strict comparison of character lists: the order Python's
`str.__lt__` uses (code-point by code-point, shorter string first on a tie). -/
def charsLtb : List Char → List Char → Bool
  | _, [] => false
  | [], _ :: _ => true
  | a :: as, b :: bs => if a < b then true else if b < a then false else charsLtb as bs

/-- Python's `<` on strings. -/
def strLtb (s t : String) : Bool := charsLtb s.data t.data

/-- The body of the event-conflict test inside `find_available_slot`'s loop:
events marked `transparent` are skipped, otherwise the half-open overlap
shape is applied to the *strings*
(`slot_start.isoformat() < event_end and slot_end.isoformat() > event_start`)
under lexicographic string order. -/
def eventConflict (slotStart slotEnd : LocalDT) (ev : GEvent) : Bool :=
  !(ev.transparency == some "transparent") &&
    strLtb (isoformatLDT slotStart) ev.endStr &&
    strLtb ev.startStr (isoformatLDT slotEnd)

/-- `datetime.time(12, 0)` localized on the slot's date: lunch start as a
minute-of-day. -/
def lunchStartMins : Int := 12 * 60

/-- `datetime.time(13, 0)` localized on the slot's date: lunch end as a
minute-of-day. -/
def lunchEndMins : Int := 13 * 60

/-- The `while` loop of `find_available_slot`: starting at minute-of-day `t`
(initially the window start), while `current_time + duration <= end_time`
test the candidate `[t, t+dur)` against, in order, the lunch overlap, the
reservation ledger, the owner-calendar events (string comparison), and the
attendee free/busy query.  A free/busy `HttpError` propagates to the
function-level `except`, which returns `None` — modelled by `(none, ops)`
without scanning further.  Also returns the list of free/busy calls made.
The `fuel` argument only bounds the recursion so the kernel can evaluate it;
`find_available_slot` supplies fuel strictly larger than the number of grid
steps the `while` loop can make, so the `0` branch is never reached (the
loop advances `t` by 15 per iteration and stops once `t + durMin > endMins`). -/
def findLoop (svc : Service) (events : List GEvent) (attendees : List String)
    (d : Date) (off : Int) (durMin endMins : Int) (reserved : List LocalDT) :
    Nat → Int → Option LocalDT × List POp
  | 0, _ => (none, [])
  | fuel + 1, t =>
    if t + durMin ≤ endMins then
      let slotStart : LocalDT := ⟨d, t, off⟩
      let slotEnd : LocalDT := ⟨d, t + durMin, off⟩
      if decide (t < lunchEndMins) && decide (t + durMin > lunchStartMins) then
        findLoop svc events attendees d off durMin endMins reserved fuel (t + 15)
      else if slotStart ∈ reserved then
        findLoop svc events attendees d off durMin endMins reserved fuel (t + 15)
      else if events.any (eventConflict slotStart slotEnd) then
        findLoop svc events attendees d off durMin endMins reserved fuel (t + 15)
      else
        let op := POp.fbOp (isoformatLDT slotStart) (isoformatLDT slotEnd)
        match svc.freebusy (isoformatLDT slotStart) (isoformatLDT slotEnd) attendees with
        | none => (none, [op])
        | some busyCals =>
          if busyCals.isEmpty then
            (some slotStart, [op])
          else
            let r := findLoop svc events attendees d off durMin endMins reserved fuel (t + 15)
            (r.1, op :: r.2)
    else
      (none, [])

/-- `find_available_slot`: localizes the window bounds on `new_date`, lists
the owner's events in that range (an `HttpError` here or anywhere inside the
`try` makes the function return `None`), then scans the grid via
`findLoopGo`.  Returns the found slot start (if any) and the provider calls
made. -/
def find_available_slot (svc : Service) (_calendarId : String) (newDate : Date)
    (durMin : Int) (startMins endMins : Nat) (attendees : List String)
    (off : Int) (reserved : List LocalDT) : Option LocalDT × List POp :=
  let startT : LocalDT := ⟨newDate, (startMins : Int), off⟩
  let endT : LocalDT := ⟨newDate, (endMins : Int), off⟩
  let op := POp.listOp (isoformatLDT startT) (isoformatLDT endT)
  match svc.listEvents (isoformatLDT startT) (isoformatLDT endT) with
  | none => (none, [op])
  | some events =>
    let r := findLoop svc events attendees newDate off durMin (endMins : Int) reserved
      ((endMins : Int) - durMin + 15 - startMins).toNat (startMins : Int)
    (r.1, op :: r.2)

/-- Modelled from the spec: the slot-search loop as §4.2 describes the error
policy — "Any provider failure while checking is treated as blocked
(conservative) for that one evaluation, logged, and the search continues to
the next candidate slot rather than aborting."  Identical to `findLoopGo`
except that a failing free/busy call skips only the current candidate. -/
def findLoopSpecSkip (svc : Service) (events : List GEvent) (attendees : List String)
    (d : Date) (off : Int) (durMin endMins : Int) (reserved : List LocalDT) :
    Nat → Int → Option LocalDT
  | 0, _ => none
  | fuel + 1, t =>
    if t + durMin ≤ endMins then
      let slotStart : LocalDT := ⟨d, t, off⟩
      let slotEnd : LocalDT := ⟨d, t + durMin, off⟩
      if decide (t < lunchEndMins) && decide (t + durMin > lunchStartMins) then
        findLoopSpecSkip svc events attendees d off durMin endMins reserved fuel (t + 15)
      else if slotStart ∈ reserved then
        findLoopSpecSkip svc events attendees d off durMin endMins reserved fuel (t + 15)
      else if events.any (eventConflict slotStart slotEnd) then
        findLoopSpecSkip svc events attendees d off durMin endMins reserved fuel (t + 15)
      else
        match svc.freebusy (isoformatLDT slotStart) (isoformatLDT slotEnd) attendees with
        | none => findLoopSpecSkip svc events attendees d off durMin endMins reserved fuel (t + 15)
        | some busyCals =>
          if busyCals.isEmpty then
            some slotStart
          else
            findLoopSpecSkip svc events attendees d off durMin endMins reserved fuel (t + 15)
    else
      none

/-- Modelled from the spec: `find_available_slot` with the spec's
skip-one-candidate-on-failure policy (see `findLoopSpecSkip`). -/
def findSlotSpecSkip (svc : Service) (_calendarId : String) (newDate : Date)
    (durMin : Int) (startMins endMins : Nat) (attendees : List String)
    (off : Int) (reserved : List LocalDT) : Option LocalDT :=
  let startT : LocalDT := ⟨newDate, (startMins : Int), off⟩
  let endT : LocalDT := ⟨newDate, (endMins : Int), off⟩
  match svc.listEvents (isoformatLDT startT) (isoformatLDT endT) with
  | none => none
  | some events =>
    findLoopSpecSkip svc events attendees newDate off durMin (endMins : Int) reserved
      ((endMins : Int) - durMin + 15 - startMins).toNat (startMins : Int)

/-- The listing range `get_meetings_to_reschedule` sends for a blocked day:
`datetime.combine(vacation_date, time.min).isoformat() + 'Z'` and
`datetime.combine(vacation_date, time.max).isoformat() + 'Z'` — the naive
calendar date's bounds with a literal UTC suffix.  No timezone is involved:
the function never receives one. -/
def vacation_query_range (d : Date) : String × String :=
  (naiveIso d 0 0 ++ "Z", naiveIso d 86399 999999 ++ "Z")

/-- `get_meetings_to_reschedule`: lists the blocked day's events over
`vacation_query_range`, fetches the owner email via `calendars().get`, and
keeps events with `eventType == 'default'` organized by the owner.  Any
`HttpError` inside the `try` is logged and the accumulated (still empty)
list is returned.  Also returns the provider calls made. -/
def get_meetings_to_reschedule (svc : Service) (calendarId : String) (d : Date) :
    List GEvent × List POp :=
  let range := vacation_query_range d
  let lop := POp.listOp range.1 range.2
  match svc.listEvents range.1 range.2 with
  | none => ([], [lop])
  | some events =>
    match svc.calendarsGet calendarId with
    | none => ([], [lop, POp.calGet calendarId])
    | some cal =>
      (events.filter (fun ev =>
          ev.eventType == some "default" && ev.organizerEmail == cal.id),
        [lop, POp.calGet calendarId])

/-- `reschedule_meeting`: computes
`new_end_time = new_start_time + timedelta(minutes=get_meeting_duration(event))`
and issues `events().update`.  Returns the new end and the update call. -/
def reschedule_meeting (ev : GEvent) (newStart : LocalDT) : LocalDT × List POp :=
  (⟨newStart.date, newStart.mins + get_meeting_duration ev, newStart.offset⟩,
    [POp.updOp ev.id])

/-- `str(datetime)` for an aware `LocalDT` (date, space, time, offset), as
interpolated into `main`'s log lines. -/
def strLDT (x : LocalDT) : String :=
  isoDateStr x.date ++ " " ++ pad2 ((x.mins.tdiv 60).toNat) ++ ":" ++
    pad2 ((x.mins.tmod 60).toNat) ++ ":00" ++ offsetStr x.offset

/-- The inner `for new_date in acceptable_dates: ... else: ...` loop of
`main`, for one meeting: try each acceptable date in order with
`find_available_slot`; on a hit that is not already reserved, reserve it,
log (dry run) or call `reschedule_meeting` (live), and `break`; on a hit
that is already reserved, log and continue; on `None`, continue silently;
the `for`-`else` logs the no-slot warning when no date produced a `break`.
Returns (chosen slot, updated ledger, provider calls, `log()` lines). -/
def tryDates (svc : Service) (ev : GEvent) (startMins endMins : Nat) (off : Int)
    (dryRun : Bool) :
    List Date → List LocalDT → Option LocalDT × List LocalDT × List POp × List String
  | [], reserved =>
    (none, reserved, [],
      ["WARNING: No available slot found for meeting: " ++ ev.summary ++
        " on any of the acceptable dates."])
  | newDate :: rest, reserved =>
    let r := find_available_slot svc "primary" newDate (get_meeting_duration ev)
      startMins endMins ev.attendees off reserved
    match r.1 with
    | some s =>
      if s ∈ reserved then
        let rec' := tryDates svc ev startMins endMins off dryRun rest reserved
        (rec'.1, rec'.2.1, r.2 ++ rec'.2.2.1,
          ("INFO: Slot " ++ strLDT s ++ " is already reserved. Searching for another slot.")
            :: rec'.2.2.2)
      else
        let wr := if dryRun then ([] : List POp) else (reschedule_meeting ev s).2
        let lg := if dryRun then
            ["INFO: Dry run: Meeting " ++ ev.summary ++ " would be rescheduled to " ++ strLDT s]
          else ([] : List String)
        (some s, s :: reserved, r.2 ++ wr, lg)
    | none =>
      let rec' := tryDates svc ev startMins endMins off dryRun rest reserved
      (rec'.1, rec'.2.1, r.2 ++ rec'.2.2.1, rec'.2.2.2)

/-- The `for event in meetings_to_reschedule` loop of `main`: processes each
meeting in order against the shared ledger, collecting the
(meeting, new slot) assignments. -/
def processMeetings (svc : Service) (accDates : List Date)
    (startMins endMins : Nat) (off : Int) (dryRun : Bool) :
    List GEvent → List LocalDT →
    List (GEvent × LocalDT) × List LocalDT × List POp × List String
  | [], reserved => ([], reserved, [], [])
  | ev :: rest, reserved =>
    let r1 := tryDates svc ev startMins endMins off dryRun accDates reserved
    let r2 := processMeetings svc accDates startMins endMins off dryRun rest r1.2.1
    ((match r1.1 with | some s => [(ev, s)] | none => []) ++ r2.1,
      r2.2.1, r1.2.2.1 ++ r2.2.2.1, r1.2.2.2 ++ r2.2.2.2)

/-- The `for vacation_date in vacation_dates` loop of `main`: fetch the
day's meetings, log the count, warn and continue when the day has none,
otherwise process its meetings against the shared ledger. -/
def processDays (svc : Service) (accDates : List Date)
    (startMins endMins : Nat) (off : Int) (dryRun : Bool) :
    List Date → List LocalDT →
    List (GEvent × LocalDT) × List LocalDT × List POp × List String
  | [], reserved => ([], reserved, [], [])
  | d :: rest, reserved =>
    let g := get_meetings_to_reschedule svc "primary" d
    let countLine := "INFO: Meetings to reschedule on " ++ isoDateStr d ++ ": " ++
      toString g.1.length
    if g.1.isEmpty then
      let r := processDays svc accDates startMins endMins off dryRun rest reserved
      (r.1, r.2.1, g.2 ++ r.2.2.1,
        countLine ::
          ("WARNING: No meetings found to reschedule on " ++ isoDateStr d ++ ".") ::
          r.2.2.2)
    else
      let r1 := processMeetings svc accDates startMins endMins off dryRun g.1 reserved
      let r2 := processDays svc accDates startMins endMins off dryRun rest r1.2.1
      (r1.1 ++ r2.1, r2.2.1, g.2 ++ r1.2.2.1 ++ r2.2.2.1,
        countLine :: (r1.2.2.2 ++ r2.2.2.2))

/-- The CLI-level inputs of `main` after tokenization: each comma-separated
date token is carried as the result of its `strptime('%Y-%m-%d')` call
(`none` = `ValueError`), and each window time as the result of its
`strptime('%H:%M')` call in minutes of day. -/
structure MainInput where
  vacationTokens : List (Option Date)
  acceptableTokens : List (Option Date)
  startTok : Option Nat
  endTok : Option Nat
  dryRun : Bool

/-- Sequencing of parse results: Python's list comprehension raises at the
first malformed token, so the whole list parses exactly when every token
does. -/
def seqOption : List (Option α) → Option (List α)
  | [] => some []
  | none :: _ => none
  | some a :: rest => (seqOption rest).map (a :: ·)

/-- Outcome of one `main` run: the recorded assignments (meeting ↦ new slot
start), the final reservation ledger, the provider calls made, and the
`log()` transcript `main` returns. -/
structure RunOut where
  assignments : List (GEvent × LocalDT)
  reserved : List LocalDT
  ops : List POp
  log : List String
deriving DecidableEq, Repr

/-- `main`: authentication (the service object, `none` = failure), the
timezone fetch via `calendars().get('primary')`, the three input-validation
steps (each aborting with a single error line), then the planner loops over
an initially empty ledger. -/
def mainRun (svcOpt : Option Service) (inp : MainInput) : RunOut :=
  match svcOpt with
  | none => ⟨[], [], [], ["ERROR: Failed to get Google Calendar service."]⟩
  | some svc =>
    match svc.calendarsGet "primary" with
    | none => ⟨[], [], [POp.calGet "primary"],
        ["ERROR: Failed to fetch calendar timezone."]⟩
    | some cal =>
      let off := cal.tzOffset
      let tzLine := "INFO: Using calendar timezone: " ++ cal.tzName
      match seqOption inp.vacationTokens with
      | none => ⟨[], [], [POp.calGet "primary"],
          [tzLine, "ERROR: Invalid vacation dates format. Use a comma-separated list of YYYY-MM-DD."]⟩
      | some vacDates =>
        match seqOption inp.acceptableTokens with
        | none => ⟨[], [], [POp.calGet "primary"],
            [tzLine, "ERROR: Invalid acceptable dates format. Use a comma-separated list of YYYY-MM-DD."]⟩
        | some accDates =>
          match inp.startTok, inp.endTok with
          | some sM, some eM =>
            let r := processDays svc accDates sM eM off inp.dryRun vacDates []
            ⟨r.1, r.2.1, POp.calGet "primary" :: r.2.2.1, tzLine :: r.2.2.2⟩
          | _, _ => ⟨[], [], [POp.calGet "primary"],
              [tzLine, "ERROR: Invalid time slot format. Use HH:MM."]⟩

/-- Fixture: the blocked (vacation) day used in concrete runs. -/
def dVac : Date := ⟨2025, 3, 10⟩

/-- Fixture: the candidate (acceptable) day used in concrete runs. -/
def dCand : Date := ⟨2025, 3, 12⟩

/-- Fixture: a 30-minute owner-organized meeting on the blocked day. -/
def evA : GEvent :=
  { id := "e1", summary := "Standup", eventType := some "default",
    organizerEmail := some "me@example.com", attendees := ["a@example.com"],
    transparency := none,
    startStr := "2025-03-10T14:00:00Z", endStr := "2025-03-10T14:30:00Z",
    startUs := 0, endUs := 1800000000 }

/-- Fixture: a provider with one meeting on the blocked day, an empty
candidate calendar, and all attendees free. -/
def svcClean : Service :=
  { listEvents := fun a _ =>
      if a = (vacation_query_range dVac).1 then some [evA] else some [],
    calendarsGet := fun _ => some ⟨some "me@example.com", "UTC", 0⟩,
    freebusy := fun _ _ _ => some [] }

/-- Fixture: canonical parsed CLI input (one blocked day, one candidate day,
window 09:00–17:00, dry run). -/
def inpClean : MainInput :=
  { vacationTokens := [some dVac], acceptableTokens := [some dCand],
    startTok := some 540, endTok := some 1020, dryRun := true }

/-- Ledger discipline of the per-meeting date loop: when no slot is chosen
the ledger is returned unchanged; when slot `s` is chosen it was not in the
ledger at the moment of choice and the new ledger is exactly `s` prepended. -/
theorem tryDates_ledger (svc : Service) (ev : GEvent) (sM eM : Nat) (off : Int)
    (dry : Bool) :
    ∀ (dates : List Date) (R : List LocalDT),
      ((tryDates svc ev sM eM off dry dates R).1 = none →
        (tryDates svc ev sM eM off dry dates R).2.1 = R) ∧
      (∀ s, (tryDates svc ev sM eM off dry dates R).1 = some s →
        (tryDates svc ev sM eM off dry dates R).2.1 = s :: R ∧ s ∉ R) := by
  intro dates
  induction dates with
  | nil =>
    intro R
    simp [tryDates]
  | cons d rest ih =>
    intro R
    simp only [tryDates]
    rcases hf : (find_available_slot svc "primary" d (get_meeting_duration ev)
        sM eM ev.attendees off R).1 with _ | s
    · simpa using ih R
    · by_cases hmem : s ∈ R
      · simp only [if_pos hmem]
        simpa using ih R
      · simp only [if_neg hmem]
        refine ⟨by simp, ?_⟩
        intro s' hs'
        simp only [Option.some.injEq] at hs'
        subst hs'
        exact ⟨rfl, hmem⟩

/-- Ledger invariant of the per-day meeting loop: starting from ledger `R`,
the final ledger is exactly the newly assigned slot starts (newest first)
prepended to `R`, the assigned slot starts are pairwise distinct, and none
of them was in `R`. -/
theorem processMeetings_inv (svc : Service) (accD : List Date) (sM eM : Nat)
    (off : Int) (dry : Bool) :
    ∀ (evs : List GEvent) (R : List LocalDT),
      (processMeetings svc accD sM eM off dry evs R).2.1 =
        ((processMeetings svc accD sM eM off dry evs R).1.map Prod.snd).reverse ++ R ∧
      ((processMeetings svc accD sM eM off dry evs R).1.map Prod.snd).Nodup ∧
      (∀ s ∈ (processMeetings svc accD sM eM off dry evs R).1.map Prod.snd, s ∉ R) := by
  intro evs
  induction evs with
  | nil =>
    intro R
    simp [processMeetings]
  | cons ev rest ih =>
    intro R
    have hled := tryDates_ledger svc ev sM eM off dry accD R
    simp only [processMeetings]
    rcases ht : (tryDates svc ev sM eM off dry accD R).1 with _ | s
    · have hR : (tryDates svc ev sM eM off dry accD R).2.1 = R := hled.1 ht
      rw [hR]
      simpa using ih R
    · have hR : (tryDates svc ev sM eM off dry accD R).2.1 = s :: R ∧ s ∉ R :=
        hled.2 s ht
      rw [hR.1]
      obtain ⟨h1, h2, h3⟩ := ih (s :: R)
      refine ⟨?_, ?_, ?_⟩
      · simp only [List.singleton_append, List.map_cons, List.reverse_cons, h1]
        simp
      · simp only [List.singleton_append, List.map_cons, List.nodup_cons]
        exact ⟨fun hmem => (h3 s hmem) (List.mem_cons_self s R), h2⟩
      · intro x hx
        simp only [List.singleton_append, List.map_cons, List.mem_cons] at hx
        rcases hx with rfl | hx
        · exact hR.2
        · intro hxR
          exact h3 x hx (List.mem_cons_of_mem s hxR)

/-- Ledger invariant of the blocked-day loop: same statement as
`processMeetings_inv`, lifted over all blocked days of a run. -/
theorem processDays_inv (svc : Service) (accD : List Date) (sM eM : Nat)
    (off : Int) (dry : Bool) :
    ∀ (days : List Date) (R : List LocalDT),
      (processDays svc accD sM eM off dry days R).2.1 =
        ((processDays svc accD sM eM off dry days R).1.map Prod.snd).reverse ++ R ∧
      ((processDays svc accD sM eM off dry days R).1.map Prod.snd).Nodup ∧
      (∀ s ∈ (processDays svc accD sM eM off dry days R).1.map Prod.snd, s ∉ R) := by
  intro days
  induction days with
  | nil =>
    intro R
    simp [processDays]
  | cons d rest ih =>
    intro R
    simp only [processDays]
    by_cases hempty : (get_meetings_to_reschedule svc "primary" d).1.isEmpty
    · simp only [if_pos hempty]
      simpa using ih R
    · simp only [if_neg hempty]
      obtain ⟨m1, m2, m3⟩ := processMeetings_inv svc accD sM eM off dry
        (get_meetings_to_reschedule svc "primary" d).1 R
      obtain ⟨d1, d2, d3⟩ := ih
        (processMeetings svc accD sM eM off dry
          (get_meetings_to_reschedule svc "primary" d).1 R).2.1
      refine ⟨?_, ?_, ?_⟩
      · rw [d1, m1]
        simp [List.append_assoc]
      · rw [List.map_append, List.nodup_append]
        refine ⟨m2, d2, ?_⟩
        intro x hx hx'
        have := d3 x hx'
        rw [m1] at this
        exact this (by simp [hx])
      · intro x hx hxR
        rw [List.map_append, List.mem_append] at hx
        rcases hx with hx | hx
        · exact m3 x hx hxR
        · have := d3 x hx
          rw [m1] at this
          exact this (by simp [hxR])

/-- C1: in every run of the planner (`main`), dry-run or live, the newly
assigned slot-start instants are pairwise distinct, and the final
reservation ledger consists of exactly the assigned slot starts (newest
first): a slot is added to the ledger together with its selection, is never
in the ledger at the moment it is chosen (by `processDays_inv`, the inner
lemma quantified over every starting ledger), and is never removed for the
remainder of the run. -/
theorem no_double_booking (svcOpt : Option Service) (inp : MainInput) :
    ((mainRun svcOpt inp).assignments.map Prod.snd).Nodup ∧
    (mainRun svcOpt inp).reserved =
      ((mainRun svcOpt inp).assignments.map Prod.snd).reverse := by
  cases svcOpt with
  | none => simp [mainRun]
  | some svc =>
    simp only [mainRun]
    rcases hc : svc.calendarsGet "primary" with _ | cal
    · simp
    · rcases hv : seqOption inp.vacationTokens with _ | vd
      · simp
      · rcases ha : seqOption inp.acceptableTokens with _ | ad
        · simp
        · rcases hs : inp.startTok with _ | sM
          · simp
          · rcases he : inp.endTok with _ | eM
            · simp
            · obtain ⟨h1, h2, _⟩ :=
                processDays_inv svc ad sM eM cal.tzOffset inp.dryRun vd []
              rw [List.append_nil] at h1
              exact ⟨by simpa using h2, by simpa using h1⟩

/-- Fixture: an owner-organized meeting lasting 90 seconds — a positive
duration that is not a whole number of minutes. -/
def ev90s : GEvent :=
  { id := "e90", summary := "Quick sync", eventType := some "default",
    organizerEmail := some "me@example.com", attendees := [],
    transparency := none,
    startStr := "2025-03-10T14:00:00Z", endStr := "2025-03-10T14:01:30Z",
    startUs := 0, endUs := 90000000 }

/-- C2 counterexample: for a 90-second meeting (positive duration, not a
whole number of minutes), `get_meeting_duration` truncates to 1 minute, so
the rescheduled slot's duration (in microseconds) is 60000000 while the
original duration is 90000000 — `newEnd − newStart ≠ originalEnd − originalStart`. -/
theorem duration_not_preserved_counterexample :
    0 < ev90s.endUs - ev90s.startUs ∧
    ev90s.endUs - ev90s.startUs = 90000000 ∧
    ((reschedule_meeting ev90s ⟨dCand, 540, 0⟩).1.mins - (540 : Int)) * 60000000 =
      60000000 ∧
    ((reschedule_meeting ev90s ⟨dCand, 540, 0⟩).1.mins - (540 : Int)) * 60000000 ≠
      ev90s.endUs - ev90s.startUs := by
  refine ⟨by decide, by decide, by decide, by decide⟩

/-- C2 amended: duration is preserved exactly for every meeting whose
original duration is a whole number of minutes; otherwise
`get_meeting_duration`'s `int(... / 60)` truncates it (see the
counterexample).  `(reschedule_meeting ev s).1` is the new end datetime,
so the left side is the new slot's duration in microseconds. -/
theorem duration_preserved_whole_minutes (ev : GEvent) (s : LocalDT)
    (h : (60000000 : Int) ∣ ev.endUs - ev.startUs) :
    ((reschedule_meeting ev s).1.mins - s.mins) * 60000000 =
      ev.endUs - ev.startUs := by
  obtain ⟨k, hk⟩ := h
  simp only [reschedule_meeting, get_meeting_duration, hk, add_sub_cancel_left]
  rw [Int.mul_tdiv_cancel_left _ (by norm_num)]
  ring

/-- C2 witness: the amended theorem applied to the concrete 30-minute
meeting `evA`. -/
theorem duration_preserved_whole_minutes_witness :
    ((60000000 : Int) ∣ evA.endUs - evA.startUs) ∧
    ((reschedule_meeting evA ⟨dCand, 540, 0⟩).1.mins - (540 : Int)) * 60000000 =
      evA.endUs - evA.startUs :=
  ⟨⟨30, by decide⟩, duration_preserved_whole_minutes evA ⟨dCand, 540, 0⟩ ⟨30, by decide⟩⟩

/-- C7: with no owner-calendar conflicts and no attendee conflicts
(`svcClean` lists no events in the window and reports every attendee free),
searching the window 11:45–14:00 (minutes 705–840) for a 30-minute meeting
returns 13:00 (minute 780) on the candidate date: the grid candidates
11:45, 12:00, 12:15, 12:30 and 12:45 each satisfy the blackout overlap test
`slotStart < lunchEnd ∧ slotEnd > lunchStart` and are rejected, and 13:00 is
the first candidate that does not. -/
theorem blackout_forces_1300_slot :
    (find_available_slot svcClean "primary" dCand 30 705 840 evA.attendees 0 []).1 =
      some ⟨dCand, 780, 0⟩ ∧
    ((705 : Int) < lunchEndMins ∧ (705 : Int) + 30 > lunchStartMins) ∧
    ((720 : Int) < lunchEndMins ∧ (720 : Int) + 30 > lunchStartMins) ∧
    ((735 : Int) < lunchEndMins ∧ (735 : Int) + 30 > lunchStartMins) ∧
    ((750 : Int) < lunchEndMins ∧ (750 : Int) + 30 > lunchStartMins) ∧
    ((765 : Int) < lunchEndMins ∧ (765 : Int) + 30 > lunchStartMins) ∧
    ¬((780 : Int) < lunchEndMins ∧ (780 : Int) + 30 > lunchStartMins) := by
  decide

/-- C10: the event-listing range used to select a blocked day's meetings is
the naive calendar date's `[00:00, 23:59:59.999999]` with a literal `Z`
(UTC) suffix — `vacation_query_range` takes only the date, no timezone, so
the range (and hence the set of meetings considered for the day) is fixed by
the UTC day regardless of the calendar timezone fetched at startup; and the
listing call `get_meetings_to_reschedule` issues is exactly over that range,
whatever the provider returns. -/
theorem vacation_range_is_naive_utc_day (d : Date) :
    vacation_query_range d =
      (isoDateStr d ++ "T00:00:00Z", isoDateStr d ++ "T23:59:59.999999Z") ∧
    ∀ svc : Service, (get_meetings_to_reschedule svc "primary" d).2.head? =
      some (POp.listOp (vacation_query_range d).1 (vacation_query_range d).2) := by
  constructor
  · have h1 : naiveIso d 0 0 =
        isoDateStr d ++ "T" ++ "00" ++ ":" ++ "00" ++ ":" ++ "00" ++ "" := rfl
    have h2 : naiveIso d 86399 999999 =
        isoDateStr d ++ "T" ++ "23" ++ ":" ++ "59" ++ ":" ++ "59" ++ ("." ++ "999999") := rfl
    simp [vacation_query_range, h1, h2, String.append_assoc]
  · intro svc
    simp only [get_meetings_to_reschedule]
    rcases svc.listEvents (vacation_query_range d).1 (vacation_query_range d).2 with _ | evs
    · rfl
    · rcases svc.calendarsGet "primary" with _ | cal <;> rfl

/-- What it means for `findLoop` to return a slot: the returned value is the
candidate start `⟨d, t, off⟩` for some reached `t`, the candidate fits the
window, fails the blackout overlap test, is not in the ledger, conflicts
with no listed event under the string comparison, and the free/busy query
at the candidate succeeded reporting nobody busy. -/
theorem findLoop_some_inv (svc : Service) (events : List GEvent)
    (attendees : List String) (d : Date) (off : Int) (durMin endMins : Int)
    (reserved : List LocalDT) :
    ∀ (fuel : Nat) (t : Int) (s : LocalDT),
      (findLoop svc events attendees d off durMin endMins reserved fuel t).1 = some s →
      s.date = d ∧ s.offset = off ∧
      s.mins + durMin ≤ endMins ∧
      ¬(s.mins < lunchEndMins ∧ s.mins + durMin > lunchStartMins) ∧
      s ∉ reserved ∧
      events.any (eventConflict s ⟨d, s.mins + durMin, off⟩) = false ∧
      svc.freebusy (isoformatLDT s) (isoformatLDT ⟨d, s.mins + durMin, off⟩)
        attendees = some [] := by
  intro fuel
  induction fuel with
  | zero =>
    intro t s hres
    simp [findLoop] at hres
  | succ fuel ih =>
    intro t s hres
    rw [findLoop] at hres
    split at hres
    · next hg =>
      split at hres
      · exact ih _ s hres
      · next hlunch =>
        dsimp only at hres
        split at hres
        · exact ih _ s hres
        · next hmem =>
          split at hres
          · exact ih _ s hres
          · next hconf =>
            split at hres
            · simp at hres
            · next busyCals hfb =>
              split at hres
              · next hbusy =>
                simp only [Option.some.injEq] at hres
                subst hres
                refine ⟨rfl, rfl, hg, ?_, hmem, ?_, ?_⟩
                · intro hover
                  apply hlunch
                  simp only [Bool.and_eq_true, decide_eq_true_eq]
                  exact hover
                · simpa using hconf
                · rw [hfb]
                  congr 1
                  exact List.isEmpty_iff.mp hbusy
              · exact ih _ s hres
    · simp at hres

/-- Lift of `findLoop_some_inv` to `find_available_slot`: a returned slot
fits the window, fails the blackout overlap test, was not reserved, and the
owner-calendar listing succeeded with no event conflicting at the slot. -/
theorem find_available_slot_some_inv (svc : Service) (calId : String)
    (newDate : Date) (durMin : Int) (sM eM : Nat) (attendees : List String)
    (off : Int) (reserved : List LocalDT) (s : LocalDT)
    (hres : (find_available_slot svc calId newDate durMin sM eM attendees off
      reserved).1 = some s) :
    s.date = newDate ∧ s.offset = off ∧
    s.mins + durMin ≤ (eM : Int) ∧
    ¬(s.mins < lunchEndMins ∧ s.mins + durMin > lunchStartMins) ∧
    s ∉ reserved ∧
    ∃ evs, svc.listEvents (isoformatLDT ⟨newDate, (sM : Int), off⟩)
        (isoformatLDT ⟨newDate, (eM : Int), off⟩) = some evs ∧
      evs.any (eventConflict s ⟨newDate, s.mins + durMin, off⟩) = false := by
  rw [find_available_slot] at hres
  rcases hl : svc.listEvents (isoformatLDT ⟨newDate, (sM : Int), off⟩)
      (isoformatLDT ⟨newDate, (eM : Int), off⟩) with _ | evs
  · rw [hl] at hres
    simp at hres
  · rw [hl] at hres
    dsimp only at hres
    obtain ⟨h1, h2, h3, h4, h5, h6, _⟩ := findLoop_some_inv svc evs attendees
      newDate off durMin eM reserved _ _ s hres
    subst h1
    exact ⟨rfl, h2, h3, h4, h5, evs, rfl, h6⟩

/-- A slot chosen by the per-meeting date loop fails the blackout overlap
test for that meeting's duration. -/
theorem tryDates_no_lunch_overlap (svc : Service) (ev : GEvent) (sM eM : Nat)
    (off : Int) (dry : Bool) :
    ∀ (dates : List Date) (R : List LocalDT) (s : LocalDT),
      (tryDates svc ev sM eM off dry dates R).1 = some s →
      ¬(s.mins < lunchEndMins ∧
        s.mins + get_meeting_duration ev > lunchStartMins) := by
  intro dates
  induction dates with
  | nil =>
    intro R s hres
    simp [tryDates] at hres
  | cons d rest ih =>
    intro R s hres
    simp only [tryDates] at hres
    rcases hf : (find_available_slot svc "primary" d (get_meeting_duration ev)
        sM eM ev.attendees off R).1 with _ | s'
    · rw [hf] at hres
      exact ih R s hres
    · rw [hf] at hres
      dsimp only at hres
      by_cases hmem : s' ∈ R
      · rw [if_pos hmem] at hres
        exact ih R s hres
      · rw [if_neg hmem] at hres
        simp only [Option.some.injEq] at hres
        subst hres
        exact (find_available_slot_some_inv svc "primary" d
          (get_meeting_duration ev) sM eM ev.attendees off R s' hf).2.2.2.1

/-- Every assignment recorded by the per-day meeting loop fails the blackout
overlap test for its meeting's duration. -/
theorem processMeetings_no_lunch_overlap (svc : Service) (accD : List Date)
    (sM eM : Nat) (off : Int) (dry : Bool) :
    ∀ (evs : List GEvent) (R : List LocalDT),
      ∀ p ∈ (processMeetings svc accD sM eM off dry evs R).1,
        ¬(p.2.mins < lunchEndMins ∧
          p.2.mins + get_meeting_duration p.1 > lunchStartMins) := by
  intro evs
  induction evs with
  | nil =>
    intro R p hp
    simp [processMeetings] at hp
  | cons ev rest ih =>
    intro R p hp
    simp only [processMeetings] at hp
    rw [List.mem_append] at hp
    rcases hp with hp | hp
    · rcases ht : (tryDates svc ev sM eM off dry accD R).1 with _ | s
      · rw [ht] at hp
        simp at hp
      · rw [ht] at hp
        simp only [List.mem_singleton] at hp
        subst hp
        exact tryDates_no_lunch_overlap svc ev sM eM off dry accD R s ht
    · exact ih _ p hp

/-- Every assignment recorded across all blocked days fails the blackout
overlap test for its meeting's duration. -/
theorem processDays_no_lunch_overlap (svc : Service) (accD : List Date)
    (sM eM : Nat) (off : Int) (dry : Bool) :
    ∀ (days : List Date) (R : List LocalDT),
      ∀ p ∈ (processDays svc accD sM eM off dry days R).1,
        ¬(p.2.mins < lunchEndMins ∧
          p.2.mins + get_meeting_duration p.1 > lunchStartMins) := by
  intro days
  induction days with
  | nil =>
    intro R p hp
    simp [processDays] at hp
  | cons d rest ih =>
    intro R p hp
    simp only [processDays] at hp
    by_cases hempty : (get_meetings_to_reschedule svc "primary" d).1.isEmpty
    · rw [if_pos hempty] at hp
      exact ih _ p hp
    · rw [if_neg hempty] at hp
      rw [List.mem_append] at hp
      rcases hp with hp | hp
      · exact processMeetings_no_lunch_overlap svc accD sM eM off dry _ _ p hp
      · exact ih _ p hp

/-- C5: no slot ever assigned to a meeting overlaps the fixed blackout
sub-range [12:00, 13:00) local time on its date, under the half-open test
`slotStart < blackoutEnd ∧ slotEnd > blackoutStart` (with `slotEnd` the
slot start plus the meeting's duration); moreover any candidate satisfying
that test is rejected by the slot search, so a returned slot never
satisfies it (second conjunct, at `find_available_slot` level). -/
theorem blackout_exclusion (svcOpt : Option Service) (inp : MainInput) :
    (∀ p ∈ (mainRun svcOpt inp).assignments,
      ¬(p.2.mins < lunchEndMins ∧
        p.2.mins + get_meeting_duration p.1 > lunchStartMins)) ∧
    (∀ (svc : Service) (calId : String) (newDate : Date) (durMin : Int)
      (sM eM : Nat) (attendees : List String) (off : Int)
      (reserved : List LocalDT) (s : LocalDT),
      (find_available_slot svc calId newDate durMin sM eM attendees off
        reserved).1 = some s →
      ¬(s.mins < lunchEndMins ∧ s.mins + durMin > lunchStartMins)) := by
  constructor
  · intro p hp
    rcases svcOpt with _ | svc
    · simp [mainRun] at hp
    · simp only [mainRun] at hp
      rcases hc : svc.calendarsGet "primary" with _ | cal
      · rw [hc] at hp; simp at hp
      · rw [hc] at hp
        rcases hv : seqOption inp.vacationTokens with _ | vd
        · rw [hv] at hp; simp at hp
        · rw [hv] at hp
          rcases ha : seqOption inp.acceptableTokens with _ | ad
          · rw [ha] at hp; simp at hp
          · rw [ha] at hp
            rcases hs : inp.startTok with _ | sM
            · rw [hs] at hp; simp at hp
            · rw [hs] at hp
              rcases he : inp.endTok with _ | eM
              · rw [he] at hp; simp at hp
              · rw [he] at hp
                exact processDays_no_lunch_overlap svc ad sM eM cal.tzOffset
                  inp.dryRun vd [] p hp
  · intro svc calId newDate durMin sM eM attendees off reserved s hres
    exact (find_available_slot_some_inv svc calId newDate durMin sM eM
      attendees off reserved s hres).2.2.2.1

/-- C5 witness: the blackout-exclusion theorem applied to the concrete run
`mainRun (some svcClean) inpClean`, whose single assignment is
`(evA, 09:00 on the candidate day)`. -/
theorem blackout_exclusion_witness :
    (evA, (⟨dCand, 540, 0⟩ : LocalDT)) ∈ (mainRun (some svcClean) inpClean).assignments ∧
    ¬((⟨dCand, 540, 0⟩ : LocalDT).mins < lunchEndMins ∧
      (⟨dCand, 540, 0⟩ : LocalDT).mins + get_meeting_duration evA > lunchStartMins) :=
  ⟨by decide,
    (blackout_exclusion (some svcClean) inpClean).1 (evA, ⟨dCand, 540, 0⟩) (by decide)⟩

/-- Fixture: a provider whose free/busy query raises `HttpError` exactly on
the 09:00 candidate slot of the candidate day and reports everyone free on
any other range; the candidate-day calendar is empty. -/
def svcFbFail : Service :=
  { listEvents := fun _ _ => some [],
    calendarsGet := fun _ => some ⟨some "me@example.com", "UTC", 0⟩,
    freebusy := fun a _ _ =>
      if a = isoformatLDT ⟨dCand, 540, 0⟩ then none else some [] }

/-- C3 counterexample: searching the window 09:00–10:00 for a 30-minute
meeting under `svcFbFail`, the free/busy failure on the very first candidate
makes `find_available_slot` return `None` — abandoning the remaining
candidates of the window — while the spec's skip-that-one-slot policy
(`findSlotSpecSkip`, modelled from the spec's words) would continue within
the same window and return the 09:15 slot.  So a provider failure while
checking one slot is not treated as "that slot blocked, continue": it
aborts the whole window's search. -/
theorem provider_failure_aborts_window_counterexample :
    (find_available_slot svcFbFail "primary" dCand 30 540 600 [] 0 []).1 = none ∧
    findSlotSpecSkip svcFbFail "primary" dCand 30 540 600 [] 0 [] =
      some ⟨dCand, 555, 0⟩ ∧
    (find_available_slot svcFbFail "primary" dCand 30 540 600 [] 0 []).1 ≠
      findSlotSpecSkip svcFbFail "primary" dCand 30 540 600 [] 0 [] := by
  refine ⟨by decide, by decide, by decide⟩

/-- Under a free/busy endpoint that always fails, the scan can never return
a slot (every candidate either advances the scan without a query or dies on
the failing query). -/
theorem findLoop_none_of_fb_fail (svc : Service) (events : List GEvent)
    (attendees : List String) (d : Date) (off : Int) (durMin endMins : Int)
    (reserved : List LocalDT)
    (hfb : ∀ a b c, svc.freebusy a b c = none) :
    ∀ (fuel : Nat) (t : Int),
      (findLoop svc events attendees d off durMin endMins reserved fuel t).1 = none := by
  intro fuel
  induction fuel with
  | zero => intro t; simp [findLoop]
  | succ fuel ih =>
    intro t
    rw [findLoop]
    split
    · dsimp only
      split
      · exact ih _
      · split
        · exact ih _
        · split
          · exact ih _
          · rw [hfb]
    · rfl

/-- C3 amended: a provider failure while checking slots aborts the *current
window's* search — `find_available_slot` returns `None` when the event
listing for the window fails, and likewise when the free/busy endpoint is
failing — and the planner then continues with the meeting's next candidate
window (same choice, ledger and log transcript as if the failed window had
not been in the list), rather than aborting the run or continuing within
the failed window. -/
theorem provider_failure_error_policy :
    (∀ (svc : Service) (calId : String) (nd : Date) (durMin : Int) (sM eM : Nat)
      (att : List String) (off : Int) (R : List LocalDT),
      svc.listEvents (isoformatLDT ⟨nd, (sM : Int), off⟩)
        (isoformatLDT ⟨nd, (eM : Int), off⟩) = none →
      (find_available_slot svc calId nd durMin sM eM att off R).1 = none) ∧
    (∀ (svc : Service) (calId : String) (nd : Date) (durMin : Int) (sM eM : Nat)
      (att : List String) (off : Int) (R : List LocalDT),
      (∀ a b c, svc.freebusy a b c = none) →
      (find_available_slot svc calId nd durMin sM eM att off R).1 = none) ∧
    (∀ (svc : Service) (ev : GEvent) (sM eM : Nat) (off : Int) (dry : Bool)
      (nd : Date) (rest : List Date) (R : List LocalDT),
      (find_available_slot svc "primary" nd (get_meeting_duration ev)
        sM eM ev.attendees off R).1 = none →
      (tryDates svc ev sM eM off dry (nd :: rest) R).1 =
        (tryDates svc ev sM eM off dry rest R).1 ∧
      (tryDates svc ev sM eM off dry (nd :: rest) R).2.1 =
        (tryDates svc ev sM eM off dry rest R).2.1 ∧
      (tryDates svc ev sM eM off dry (nd :: rest) R).2.2.2 =
        (tryDates svc ev sM eM off dry rest R).2.2.2) := by
  refine ⟨?_, ?_, ?_⟩
  · intro svc calId nd durMin sM eM att off R h
    simp only [find_available_slot]
    rw [h]
  · intro svc calId nd durMin sM eM att off R hfb
    simp only [find_available_slot]
    rcases svc.listEvents (isoformatLDT ⟨nd, (sM : Int), off⟩)
        (isoformatLDT ⟨nd, (eM : Int), off⟩) with _ | evs
    · rfl
    · exact findLoop_none_of_fb_fail svc evs att nd off durMin eM R hfb _ _
  · intro svc ev sM eM off dry nd rest R h
    simp only [tryDates]
    rw [h]
    exact ⟨rfl, rfl, rfl⟩

/-- Fixture: a provider whose free/busy endpoint always fails. -/
def svcAllFbFail : Service :=
  { listEvents := fun _ _ => some [],
    calendarsGet := fun _ => some ⟨some "me@example.com", "UTC", 0⟩,
    freebusy := fun _ _ _ => none }

/-- C3 witness: the error-policy theorem applied concretely — with the
always-failing free/busy provider the 09:00–10:00 window search returns
`None`, and the planner's per-meeting loop over `[dCand]` then behaves as
the loop over the remaining (empty) window list. -/
theorem provider_failure_error_policy_witness :
    (find_available_slot svcAllFbFail "primary" dCand 30 540 600
      evA.attendees 0 []).1 = none ∧
    (tryDates svcAllFbFail evA 540 600 0 true [dCand] []).1 =
      (tryDates svcAllFbFail evA 540 600 0 true [] []).1 :=
  ⟨provider_failure_error_policy.2.1 svcAllFbFail "primary" dCand 30 540 600
      evA.attendees 0 [] (fun _ _ _ => rfl),
    (provider_failure_error_policy.2.2 svcAllFbFail evA 540 600 0 true dCand [] []
      (provider_failure_error_policy.2.1 svcAllFbFail "primary" dCand
        (get_meeting_duration evA) 540 600 evA.attendees 0 []
        (fun _ _ _ => rfl))).1⟩

/-- Fixture: CLI input whose blocked-dates field contains a malformed token
(`strptime` raises), with all other fields well-formed. -/
def inpBadVac : MainInput :=
  { vacationTokens := [none], acceptableTokens := [some dCand],
    startTok := some 540, endTok := some 1020, dryRun := true }

/-- C4 counterexample: on a malformed blocked-date input the run does abort
with a single validation-error log line and performs no listing, free/busy
or update call — but the timezone fetch (`calendars().get('primary')`, a
provider read) has already been performed before validation: the provider
trace is `[calGet "primary"]`, not empty, because `main` fetches the
calendar timezone first and uses it to parse the date strings. -/
theorem validation_after_tz_fetch_counterexample :
    (mainRun (some svcClean) inpBadVac).ops = [POp.calGet "primary"] ∧
    (mainRun (some svcClean) inpBadVac).ops ≠ [] ∧
    (mainRun (some svcClean) inpBadVac).log =
      ["INFO: Using calendar timezone: UTC",
        "ERROR: Invalid vacation dates format. Use a comma-separated list of YYYY-MM-DD."] := by
  refine ⟨by decide, by decide, by decide⟩

/-- A token list sequences to `none` exactly when it contains a malformed
token. -/
theorem seqOption_eq_none_iff {α : Type} (l : List (Option α)) :
    seqOption l = none ↔ none ∈ l := by
  induction l with
  | nil => simp [seqOption]
  | cons a rest ih =>
    cases a with
    | none => simp [seqOption]
    | some x => simp [seqOption, Option.map_eq_none', ih]

/-- C4 amended: a malformed blocked-date, candidate-date or window-time
input aborts the run immediately with a single validation-error log line,
with no partial processing — no event listing, free/busy query or event
update is performed — but *after* one provider read, the timezone fetch,
which `main` performs first because parsing uses the calendar timezone. -/
theorem input_validation_policy (svc : Service) (cal : CalInfo) (inp : MainInput)
    (hc : svc.calendarsGet "primary" = some cal) :
    (none ∈ inp.vacationTokens →
      mainRun (some svc) inp =
        ⟨[], [], [POp.calGet "primary"],
          ["INFO: Using calendar timezone: " ++ cal.tzName,
            "ERROR: Invalid vacation dates format. Use a comma-separated list of YYYY-MM-DD."]⟩) ∧
    (none ∉ inp.vacationTokens → none ∈ inp.acceptableTokens →
      mainRun (some svc) inp =
        ⟨[], [], [POp.calGet "primary"],
          ["INFO: Using calendar timezone: " ++ cal.tzName,
            "ERROR: Invalid acceptable dates format. Use a comma-separated list of YYYY-MM-DD."]⟩) ∧
    (none ∉ inp.vacationTokens → none ∉ inp.acceptableTokens →
      (inp.startTok = none ∨ inp.endTok = none) →
      mainRun (some svc) inp =
        ⟨[], [], [POp.calGet "primary"],
          ["INFO: Using calendar timezone: " ++ cal.tzName,
            "ERROR: Invalid time slot format. Use HH:MM."]⟩) := by
  refine ⟨?_, ?_, ?_⟩
  · intro hbad
    have hv : seqOption inp.vacationTokens = none := (seqOption_eq_none_iff _).mpr hbad
    simp only [mainRun, hc, hv]
  · intro hokv hbad
    have hv : seqOption inp.vacationTokens ≠ none :=
      fun h => hokv ((seqOption_eq_none_iff _).mp h)
    rcases hv' : seqOption inp.vacationTokens with _ | vd
    · exact absurd hv' hv
    · have ha : seqOption inp.acceptableTokens = none := (seqOption_eq_none_iff _).mpr hbad
      simp only [mainRun, hc, hv', ha]
  · intro hokv hoka htime
    rcases hv' : seqOption inp.vacationTokens with _ | vd
    · exact absurd ((seqOption_eq_none_iff _).mp hv') hokv
    · rcases ha' : seqOption inp.acceptableTokens with _ | ad
      · exact absurd ((seqOption_eq_none_iff _).mp ha') hoka
      · simp only [mainRun, hc, hv', ha']
        rcases htime with h | h <;> rcases hs : inp.startTok with _ | sM <;>
          rcases he : inp.endTok with _ | eM <;> simp_all

/-- C4 witness: the validation-policy theorem applied to a concrete input
whose candidate-dates field is malformed. -/
theorem input_validation_policy_witness :
    mainRun (some svcClean)
        { vacationTokens := [some dVac], acceptableTokens := [none],
          startTok := some 540, endTok := some 1020, dryRun := true } =
      ⟨[], [], [POp.calGet "primary"],
        ["INFO: Using calendar timezone: UTC",
          "ERROR: Invalid acceptable dates format. Use a comma-separated list of YYYY-MM-DD."]⟩ :=
  (input_validation_policy svcClean ⟨some "me@example.com", "UTC", 0⟩ _ rfl).2.1
    (by decide) (by decide)

/-- C6's claim, formalized (restricted to events on the slot's own date,
which is all the counterexample needs): if an event's start/end strings are
the `Z`-suffixed renderings of UTC instants, the conflict decision for a
non-transparent event equals the half-open overlap test on instants, where
the slot's instant (in minutes) is its local minute-of-day minus its UTC
offset and a `Z` string's instant is its rendered minute-of-day. -/
def conflictUsesInstants : Prop :=
  ∀ (d : Date) (off sS sE es ee : Int) (ev : GEvent),
    ev.transparency = none →
    ev.startStr = isoformatZ d es →
    ev.endStr = isoformatZ d ee →
    eventConflict ⟨d, sS, off⟩ ⟨d, sE, off⟩ ev =
      (decide (sS - off < ee) && decide (sE - off > es))

/-- Fixture: an event stored with `Z`-suffixed (UTC) time strings
18:00–18:30, i.e. the very instants of the local slot 13:00–13:30 at offset
−05:00. -/
def evZ : GEvent :=
  { id := "ez", summary := "UTC-rendered event", eventType := some "default",
    organizerEmail := some "me@example.com", attendees := [],
    transparency := none,
    startStr := isoformatZ ⟨2024, 1, 15⟩ 1080, endStr := isoformatZ ⟨2024, 1, 15⟩ 1110,
    startUs := 0, endUs := 1800000000 }

/-- C6 counterexample: the conflict decision does not use instants.  The
slot 13:00–13:30 at offset −05:00 and the event `evZ` (18:00Z–18:30Z)
occupy exactly the same instants, so the instant rule reports a conflict;
but the code compares the ISO strings lexicographically
(`"2024-01-15T13:30:00-05:00" > "2024-01-15T18:00:00Z"` is false as a
string comparison), so `eventConflict` reports none. -/
theorem conflict_not_on_instants_counterexample : ¬ conflictUsesInstants := by
  intro h
  have h2 := h ⟨2024, 1, 15⟩ (-300) 780 810 1080 1110 evZ rfl rfl rfl
  exact absurd h2 (by decide)

/-- C6 amended: the conflict decision applies the half-open overlap shape to
the ISO-8601 strings under lexicographic order, not to instants (see the
counterexample); transparent events are never treated as conflicts, and a
slot returned by the search conflicts with no listed event under that
string test. -/
theorem conflict_rule_on_strings :
    (∀ (sS sE : LocalDT) (ev : GEvent), ev.transparency = some "transparent" →
      eventConflict sS sE ev = false) ∧
    (∀ (svc : Service) (calId : String) (nd : Date) (durMin : Int) (sM eM : Nat)
      (att : List String) (off : Int) (R : List LocalDT) (s : LocalDT)
      (evs : List GEvent),
      svc.listEvents (isoformatLDT ⟨nd, (sM : Int), off⟩)
        (isoformatLDT ⟨nd, (eM : Int), off⟩) = some evs →
      (find_available_slot svc calId nd durMin sM eM att off R).1 = some s →
      ∀ ev ∈ evs, eventConflict s ⟨nd, s.mins + durMin, off⟩ ev = false) := by
  constructor
  · intro sS sE ev h
    simp [eventConflict, h]
  · intro svc calId nd durMin sM eM att off R s evs hlist hres
    obtain ⟨_, _, _, _, _, evs', hlist', hany⟩ :=
      find_available_slot_some_inv svc calId nd durMin sM eM att off R s hres
    rw [hlist] at hlist'
    injection hlist' with hev
    subst hev
    intro ev hev
    have := List.any_eq_false.mp hany ev hev
    simpa using this

/-- Fixture: a transparent (marked-free) event spanning the whole candidate
day. -/
def evTr : GEvent :=
  { id := "et", summary := "Focus block", eventType := some "default",
    organizerEmail := some "me@example.com", attendees := [],
    transparency := some "transparent",
    startStr := isoformatZ dCand 0, endStr := isoformatZ dCand 1439,
    startUs := 0, endUs := 0 }

/-- Fixture: a provider whose candidate-day listing holds only the
transparent event `evTr`. -/
def svcTransp : Service :=
  { listEvents := fun _ _ => some [evTr],
    calendarsGet := fun _ => some ⟨some "me@example.com", "UTC", 0⟩,
    freebusy := fun _ _ _ => some [] }

/-- C6 witness: the amended theorem applied concretely — the transparent
all-day event `evTr` is not a conflict, and the search under `svcTransp`
returns 09:00 with no event conflicting at it. -/
theorem conflict_rule_on_strings_witness :
    eventConflict ⟨dCand, 540, 0⟩ ⟨dCand, 570, 0⟩ evTr = false ∧
    (∀ ev ∈ [evTr],
      eventConflict (⟨dCand, 540, 0⟩ : LocalDT) ⟨dCand, (540 : Int) + 30, 0⟩ ev = false) :=
  ⟨conflict_rule_on_strings.1 _ _ evTr rfl,
    conflict_rule_on_strings.2 svcTransp "primary" dCand 30 540 600 [] 0 []
      ⟨dCand, 540, 0⟩ [evTr] rfl (by decide)⟩

/-- `true` when a provider-call trace contains no `events().update` call. -/
def opsNoUpd (ops : List POp) : Bool :=
  ops.all (fun op => match op with | POp.updOp _ => false | _ => true)

/-- The slot-search loop never issues an update call. -/
theorem findLoop_ops_no_upd (svc : Service) (events : List GEvent)
    (attendees : List String) (d : Date) (off : Int) (durMin endMins : Int)
    (reserved : List LocalDT) :
    ∀ (fuel : Nat) (t : Int),
      opsNoUpd (findLoop svc events attendees d off durMin endMins reserved fuel t).2 = true := by
  intro fuel
  induction fuel with
  | zero => intro t; simp [findLoop, opsNoUpd]
  | succ fuel ih =>
    intro t
    rw [findLoop]
    split
    · dsimp only
      split
      · exact ih _
      · split
        · exact ih _
        · split
          · exact ih _
          · split
            · simp [opsNoUpd]
            · split
              · simp [opsNoUpd]
              · have := ih (t + 15)
                simp only [opsNoUpd, List.all_cons] at this ⊢
                simpa using this
    · simp [opsNoUpd]

/-- `find_available_slot` never issues an update call. -/
theorem find_ops_no_upd (svc : Service) (calId : String) (newDate : Date)
    (durMin : Int) (sM eM : Nat) (attendees : List String) (off : Int)
    (reserved : List LocalDT) :
    opsNoUpd (find_available_slot svc calId newDate durMin sM eM attendees off
      reserved).2 = true := by
  simp only [find_available_slot]
  rcases svc.listEvents (isoformatLDT ⟨newDate, (sM : Int), off⟩)
      (isoformatLDT ⟨newDate, (eM : Int), off⟩) with _ | evs
  · simp [opsNoUpd]
  · dsimp only
    have := findLoop_ops_no_upd svc evs attendees newDate off durMin eM reserved
      ((eM : Int) - durMin + 15 - (sM : Int)).toNat (sM : Int)
    simp only [opsNoUpd, List.all_cons] at this ⊢
    simpa using this

/-- Dry-run and live mode make the same choice and produce the same ledger
in the per-meeting date loop, and the dry-run trace contains no update. -/
theorem tryDates_dry_live (svc : Service) (ev : GEvent) (sM eM : Nat) (off : Int) :
    ∀ (dates : List Date) (R : List LocalDT),
      (tryDates svc ev sM eM off true dates R).1 =
        (tryDates svc ev sM eM off false dates R).1 ∧
      (tryDates svc ev sM eM off true dates R).2.1 =
        (tryDates svc ev sM eM off false dates R).2.1 ∧
      opsNoUpd (tryDates svc ev sM eM off true dates R).2.2.1 = true := by
  intro dates
  induction dates with
  | nil => intro R; simp [tryDates, opsNoUpd]
  | cons d rest ih =>
    intro R
    simp only [tryDates]
    rcases hf : (find_available_slot svc "primary" d (get_meeting_duration ev)
        sM eM ev.attendees off R).1 with _ | s
    · dsimp only
      obtain ⟨i1, i2, i3⟩ := ih R
      refine ⟨i1, i2, ?_⟩
      simp only [opsNoUpd, List.all_append] at i3 ⊢
      have := find_ops_no_upd svc "primary" d (get_meeting_duration ev)
        sM eM ev.attendees off R
      simp only [opsNoUpd] at this
      simp [this, i3]
    · dsimp only
      by_cases hmem : s ∈ R
      · rw [if_pos hmem, if_pos hmem]
        obtain ⟨i1, i2, i3⟩ := ih R
        refine ⟨i1, i2, ?_⟩
        simp only [opsNoUpd, List.all_append] at i3 ⊢
        have := find_ops_no_upd svc "primary" d (get_meeting_duration ev)
          sM eM ev.attendees off R
        simp only [opsNoUpd] at this
        simp [this, i3]
      · rw [if_neg hmem, if_neg hmem]
        refine ⟨rfl, rfl, ?_⟩
        have := find_ops_no_upd svc "primary" d (get_meeting_duration ev)
          sM eM ev.attendees off R
        simp only [opsNoUpd, List.all_append] at this ⊢
        simp [this]

/-- `get_meetings_to_reschedule` never issues an update call. -/
theorem get_meetings_ops_no_upd (svc : Service) (calId : String) (d : Date) :
    opsNoUpd (get_meetings_to_reschedule svc calId d).2 = true := by
  simp only [get_meetings_to_reschedule]
  rcases svc.listEvents (vacation_query_range d).1 (vacation_query_range d).2 with _ | evs
  · simp [opsNoUpd]
  · rcases svc.calendarsGet calId with _ | cal <;> simp [opsNoUpd]

/-- Dry-run and live mode record the same assignments and ledger across a
day's meetings, and the dry-run trace contains no update. -/
theorem processMeetings_dry_live (svc : Service) (accD : List Date)
    (sM eM : Nat) (off : Int) :
    ∀ (evs : List GEvent) (R : List LocalDT),
      (processMeetings svc accD sM eM off true evs R).1 =
        (processMeetings svc accD sM eM off false evs R).1 ∧
      (processMeetings svc accD sM eM off true evs R).2.1 =
        (processMeetings svc accD sM eM off false evs R).2.1 ∧
      opsNoUpd (processMeetings svc accD sM eM off true evs R).2.2.1 = true := by
  intro evs
  induction evs with
  | nil => intro R; simp [processMeetings, opsNoUpd]
  | cons ev rest ih =>
    intro R
    simp only [processMeetings]
    obtain ⟨t1, t2, t3⟩ := tryDates_dry_live svc ev sM eM off accD R
    rw [t1, t2]
    obtain ⟨i1, i2, i3⟩ := ih (tryDates svc ev sM eM off false accD R).2.1
    rw [i1, i2]
    refine ⟨rfl, rfl, ?_⟩
    simp only [opsNoUpd, List.all_append] at t3 i3 ⊢
    simp [t3, i3]

/-- Dry-run and live mode record the same assignments and ledger across all
blocked days, and the dry-run trace contains no update. -/
theorem processDays_dry_live (svc : Service) (accD : List Date)
    (sM eM : Nat) (off : Int) :
    ∀ (days : List Date) (R : List LocalDT),
      (processDays svc accD sM eM off true days R).1 =
        (processDays svc accD sM eM off false days R).1 ∧
      (processDays svc accD sM eM off true days R).2.1 =
        (processDays svc accD sM eM off false days R).2.1 ∧
      opsNoUpd (processDays svc accD sM eM off true days R).2.2.1 = true := by
  intro days
  induction days with
  | nil => intro R; simp [processDays, opsNoUpd]
  | cons d rest ih =>
    intro R
    simp only [processDays]
    have hg := get_meetings_ops_no_upd svc "primary" d
    by_cases hempty : (get_meetings_to_reschedule svc "primary" d).1.isEmpty
    · rw [if_pos hempty, if_pos hempty]
      obtain ⟨i1, i2, i3⟩ := ih R
      refine ⟨i1, i2, ?_⟩
      simp only [opsNoUpd, List.all_append] at hg i3 ⊢
      simp [hg, i3]
    · rw [if_neg hempty, if_neg hempty]
      obtain ⟨m1, m2, m3⟩ := processMeetings_dry_live svc accD sM eM off
        (get_meetings_to_reschedule svc "primary" d).1 R
      rw [m1, m2]
      obtain ⟨i1, i2, i3⟩ := ih
        (processMeetings svc accD sM eM off false
          (get_meetings_to_reschedule svc "primary" d).1 R).2.1
      rw [i1, i2]
      refine ⟨rfl, rfl, ?_⟩
      simp only [opsNoUpd, List.all_append] at hg m3 i3 ⊢
      simp [hg, m3, i3]

/-- C8: on identical provider state, a dry run computes exactly the same
assignments and the same final reservation ledger as a live run on the same
inputs, and its provider trace contains no `events().update` call. -/
theorem dry_run_refines_live (svcOpt : Option Service) (inp : MainInput) :
    (mainRun svcOpt { inp with dryRun := true }).assignments =
      (mainRun svcOpt { inp with dryRun := false }).assignments ∧
    (mainRun svcOpt { inp with dryRun := true }).reserved =
      (mainRun svcOpt { inp with dryRun := false }).reserved ∧
    opsNoUpd (mainRun svcOpt { inp with dryRun := true }).ops = true := by
  rcases svcOpt with _ | svc
  · simp [mainRun, opsNoUpd]
  · simp only [mainRun]
    rcases hc : svc.calendarsGet "primary" with _ | cal
    · simp [opsNoUpd]
    · rcases hv : seqOption inp.vacationTokens with _ | vd
      · simp [opsNoUpd]
      · rcases ha : seqOption inp.acceptableTokens with _ | ad
        · simp [opsNoUpd]
        · rcases hs : inp.startTok with _ | sM
          · simp [opsNoUpd]
          · rcases he : inp.endTok with _ | eM
            · simp [opsNoUpd]
            · obtain ⟨d1, d2, d3⟩ := processDays_dry_live svc ad sM eM
                cal.tzOffset vd []
              simp only [opsNoUpd, List.all_cons] at d3 ⊢
              simp [d1, d2, d3]

/-- C9: if the provider's event listing fails for a blocked day,
`get_meetings_to_reschedule` returns the empty list instead of raising, and
the planner logs the day's count as 0 plus the no-meetings warning and
continues to the remaining blocked days with assignments, ledger and
remaining transcript unchanged — none of that day's meetings is reported
unresolved. -/
theorem listing_failure_skips_day (svc : Service) (accD : List Date)
    (sM eM : Nat) (off : Int) (dry : Bool) (d : Date) (rest : List Date)
    (R : List LocalDT)
    (h : svc.listEvents (vacation_query_range d).1 (vacation_query_range d).2 = none) :
    (get_meetings_to_reschedule svc "primary" d).1 = [] ∧
    (processDays svc accD sM eM off dry (d :: rest) R).1 =
      (processDays svc accD sM eM off dry rest R).1 ∧
    (processDays svc accD sM eM off dry (d :: rest) R).2.1 =
      (processDays svc accD sM eM off dry rest R).2.1 ∧
    (processDays svc accD sM eM off dry (d :: rest) R).2.2.2 =
      ("INFO: Meetings to reschedule on " ++ isoDateStr d ++ ": " ++ "0") ::
        ("WARNING: No meetings found to reschedule on " ++ isoDateStr d ++ ".") ::
        (processDays svc accD sM eM off dry rest R).2.2.2 := by
  have hm : (get_meetings_to_reschedule svc "primary" d).1 = [] := by
    simp only [get_meetings_to_reschedule]
    rw [h]
  refine ⟨hm, ?_⟩
  simp only [processDays, hm, List.isEmpty_nil, if_true]
  exact ⟨trivial, trivial, rfl⟩

/-- Fixture: a provider whose event listing always fails. -/
def svcListFail : Service :=
  { listEvents := fun _ _ => none,
    calendarsGet := fun _ => some ⟨some "me@example.com", "UTC", 0⟩,
    freebusy := fun _ _ _ => some [] }

/-- C9 witness: the listing-failure theorem applied to a provider whose
listing always fails, on the concrete blocked day `dVac`. -/
theorem listing_failure_skips_day_witness :
    (get_meetings_to_reschedule svcListFail "primary" dVac).1 = [] ∧
    (processDays svcListFail [dCand] 540 1020 0 true [dVac] []).1 =
      (processDays svcListFail [dCand] 540 1020 0 true [] []).1 :=
  ⟨(listing_failure_skips_day svcListFail [dCand] 540 1020 0 true dVac [] [] rfl).1,
    (listing_failure_skips_day svcListFail [dCand] 540 1020 0 true dVac [] [] rfl).2.1⟩
